import Mathlib

/-!
Verification of the hedgefund-tracker position lifecycle core.

This file gives a shallow embedding, in Lean 4, of the decision logic of the
repository: the P&L and price-movement calculators (`tracker.py`, `trader.py`),
the signal-velocity classifier (`signal_hunter.py`), the position monitor with
its six-checkpoint mechanical exit cascade (`position_monitor.py`), the
due-diligence apply-decision step and the watch-check auto-kill
(`trader.py`), and the rule validator (`trading_rules.py`).  Prices, P&L
percentages and timestamps are modelled as rationals; nullable Python values
become `Option`; Python truthiness of numbers (None and 0 are falsy) is made
explicit through `truthy`.  A Python expression that would raise a `TypeError`
(comparing `None` with a number) is modelled in the `Except` monad.
-/

namespace HedgeFund

/-- Trade direction of a candidate (column `direction`). -/
inductive Direction
  | LONG
  | SHORT
  | MIXED
deriving DecidableEq, Repr

/-- Lifecycle state of a candidate (column `state`). -/
inductive CState
  | PENDING
  | WATCH
  | ACTIVE
  | PUBLISH
  | KILLED
  | EXPIRED
deriving DecidableEq, Repr

/-- Signal propagation velocity levels returned by `compute_velocity`. -/
inductive Velocity
  | quiet
  | stirring
  | propagating
  | mainstream
deriving DecidableEq, Repr

/-- Ordinal rank of a velocity level: quiet < stirring < propagating < mainstream. -/
def Velocity.level : Velocity → Nat
  | .quiet => 0
  | .stirring => 1
  | .propagating => 2
  | .mainstream => 3

/-- Decision vocabulary used by the position monitor (`monitor_position`). -/
inductive RawDecision
  | HOLD
  | TAKE_PROFIT
  | CUT_LOSS
  | ENTER
  | KILL
  | REDUCE
  | ESCALATE
deriving DecidableEq, Repr

/-- Thesis status reported by the advisory verdict. -/
inductive ThesisStatus
  | intact
  | strengthening
  | weakening
  | invalidated
deriving DecidableEq, Repr

/-- Exit type produced by the mechanical exit cascade. -/
inductive ExitType
  | take_profit
  | cut_loss
deriving DecidableEq, Repr

/-- The monitor returns `exit_type.upper()` as its decision string. -/
def ExitType.toDecision : ExitType → RawDecision
  | .take_profit => .TAKE_PROFIT
  | .cut_loss => .CUT_LOSS

/-- Which component set a candidate to KILLED (column `killed_by`). -/
inductive KilledBy
  | mechanical
  | monitor
  | dd
  | auto_expire
  | llm
deriving DecidableEq, Repr

/-- Python truthiness of an optional numeric value: `None` and `0` are falsy. -/
def truthy : Option ℚ → Bool
  | none => false
  | some x => x != 0

/-- Python `round(x, 2)` (the tie-breaking convention is immaterial here). -/
def round2 (x : ℚ) : ℚ := (round (x * 100) : ℤ) / 100

/-- Python `round(x, 1)`. -/
def round1 (x : ℚ) : ℚ := (round (x * 10) : ℤ) / 10

/-- Embeds `tracker.calculate_pnl`: directional P&L percentage, `None` when a
price is missing (or zero, by Python truthiness) or the direction is neither
LONG nor SHORT. -/
def calculate_pnl (entry_price current_price : Option ℚ) (direction : Direction) : Option ℚ :=
  if !truthy entry_price || !truthy current_price then none
  else
    match entry_price, current_price, direction with
    | some e, some c, .SHORT => some (round2 ((e - c) / e * 100))
    | some e, some c, .LONG => some (round2 ((c - e) / e * 100))
    | _, _, _ => none

/-- Embeds `trader.price_moved_pct`: absolute percentage move from the report
price, 0 when either price is missing or the report price is zero. -/
def price_moved_pct (report_price current_price : Option ℚ) : ℚ :=
  if !truthy report_price || !truthy current_price || report_price == some 0 then 0
  else
    match report_price, current_price with
    | some r, some c => |c - r| / r * 100
    | _, _ => 0

/-- One signal-scan article inside the trailing 24h window.  The `major` flag
abstracts `_is_major_source(article_source)` (a substring test against the
fixed `MAJOR_SOURCES` list). -/
structure Article where
  major : Bool
deriving DecidableEq, Repr

/-- Number of articles from major wire services (`major_count` in
`compute_velocity`). -/
def major_hits (articles : List Article) : Nat :=
  (articles.filter (fun a => a.major)).length

/-- Embeds `signal_hunter.compute_velocity`, as a function of the article rows
the 24h window query returns: `(velocity_label, hit_count, has_major_source)`. -/
def compute_velocity (articles : List Article) : Velocity × Nat × Bool :=
  if articles.isEmpty then (.quiet, 0, false)
  else
    let total := articles.length
    let major_count := major_hits articles
    if 6 ≤ total ∨ 2 ≤ major_count then (.mainstream, total, true)
    else if 3 ≤ total ∨ 1 ≤ major_count then (.propagating, total, decide (0 < major_count))
    else if 1 ≤ total then (.stirring, total, false)
    else (.quiet, 0, false)

/-- The slice of a `candidates` row that the decision logic reads or writes.
Timestamp columns are `Option (Option ℚ)`: `none` is a missing (NULL or empty)
value, `some none` a present but unparseable string, `some (some t)` a parsed
time in seconds. -/
structure Candidate where
  state : CState
  direction : Direction
  is_active : Bool
  entry_price : Option ℚ
  entry_time : Option (Option ℚ)
  dd_approved_price : Option ℚ
  dd_approved_at : Option (Option ℚ)
  state_changed_at : Option (Option ℚ)
  peak_price : Option ℚ
  trough_price : Option ℚ
  watch_checks : Nat
  monitor_count : Option Nat
  current_conviction : Option ℤ
  last_monitor_at : Option (Option ℚ)
  signal_velocity : Option Velocity
  killed_by : Option KilledBy
  exit_price : Option ℚ
  exit_time : Option ℚ
  exit_pnl_pct : Option ℚ
  total_held_hours : Option ℚ
deriving DecidableEq, Repr

/-- `MONITOR_STANDARD_INTERVAL`: 4 hours in seconds. -/
def MONITOR_STANDARD_INTERVAL : ℚ := 4 * 60 * 60

/-- `MONITOR_INTENSIVE_INTERVAL`: 2 hours in seconds. -/
def MONITOR_INTENSIVE_INTERVAL : ℚ := 2 * 60 * 60

/-- Embeds `position_monitor.should_monitor` (`now` in seconds): due for a
review cycle unless an entered position was reviewed within its adaptive
interval. -/
def should_monitor (c : Candidate) (now : ℚ) : Bool :=
  match c.entry_time with
  | none => true
  | some none => true
  | some (some entry_time) =>
    let hours_since_entry := (now - entry_time) / 3600
    let required0 := if hours_since_entry < 24 then MONITOR_INTENSIVE_INTERVAL
                     else MONITOR_STANDARD_INTERVAL
    let required_interval :=
      match c.current_conviction with
      | some k => if k ≤ 3 then MONITOR_INTENSIVE_INTERVAL else required0
      | none => required0
    match c.last_monitor_at with
    | none => true
    | some none => true
    | some (some last) => decide (required_interval ≤ now - last)

/-- The exit thresholds that `position_monitor.py` imports from `config`
(`EXIT_HARD_STOP_PCT` and friends).  Their numeric values are operator
configuration and do not appear in the repository sources, so the cascade is
parametrised over them. -/
structure ExitConfig where
  EXIT_HARD_STOP_PCT : ℚ
  EXIT_SOFT_STOP_PCT : ℚ
  EXIT_PROFIT_TAKE_PCT : ℚ
  EXIT_PROFIT_STRONG_PCT : ℚ
  EXIT_DRAWDOWN_FROM_PEAK_PCT : ℚ
  EXIT_TIME_LIMIT_HOURS : ℚ
  EXIT_MARKET_CRASH_PCT : ℚ
deriving DecidableEq, Repr

/-- The tuple returned by `check_mechanical_exits`.  `checkpoint` records which
of the six checkpoints produced the (string) `exit_reason`; `none` when no
checkpoint fired. -/
structure ExitCheck where
  should_exit : Bool
  exit_type : Option ExitType
  checkpoint : Option Nat
  skip_llm : Bool
deriving DecidableEq, Repr

/-- The `peak_pnl` value computed at the top of `check_mechanical_exits`:
P&L at the recorded peak price, falling back to the current P&L when no peak
price is recorded.  `none` represents Python `None` (MIXED direction). -/
def exit_peak_pnl (c : Candidate) (pnl_pct : ℚ) : Option ℚ :=
  if truthy c.peak_price then calculate_pnl c.entry_price c.peak_price c.direction
  else some pnl_pct

/-- Test `spy_change is not None and spy_change <= EXIT_MARKET_CRASH_PCT`
from checkpoint 4 of the cascade. -/
def crash_signal (cfg : ExitConfig) (spy_change : Option ℚ) : Bool :=
  match spy_change with
  | some s => s ≤ cfg.EXIT_MARKET_CRASH_PCT
  | none => false

/-- Embeds `position_monitor.check_mechanical_exits`: the six-checkpoint
mechanical exit cascade.  `.error ()` models the `TypeError` Python raises at
checkpoint 2 when `peak_pnl` is `None` (MIXED direction with a recorded peak
price). -/
def check_mechanical_exits (cfg : ExitConfig) (c : Candidate) (current_price : Option ℚ)
    (pnl_pct hours_since_entry : ℚ) (spy_change : Option ℚ) : Except Unit ExitCheck :=
  if !truthy c.entry_price || !truthy current_price then .ok ⟨false, none, none, false⟩
  else
    if pnl_pct ≤ cfg.EXIT_HARD_STOP_PCT then .ok ⟨true, some .cut_loss, some 1, true⟩
    else
      match exit_peak_pnl c pnl_pct with
      | none => .error ()
      | some pk =>
        if cfg.EXIT_PROFIT_TAKE_PCT ≤ pk ∧ cfg.EXIT_DRAWDOWN_FROM_PEAK_PCT ≤ pk - pnl_pct then
          .ok ⟨true, some .take_profit, some 2, true⟩
        else if cfg.EXIT_PROFIT_STRONG_PCT ≤ pnl_pct then
          .ok ⟨true, some .take_profit, some 3, true⟩
        else if c.direction = .LONG ∧ crash_signal cfg spy_change = true then
          .ok ⟨true, some .cut_loss, some 4, true⟩
        else if cfg.EXIT_TIME_LIMIT_HOURS < hours_since_entry ∧ pnl_pct < 5 then
          .ok ⟨true, some (if pnl_pct < 0 then ExitType.cut_loss else ExitType.take_profit),
               some 5, true⟩
        else if pnl_pct ≤ cfg.EXIT_SOFT_STOP_PCT then
          .ok ⟨false, none, some 6, false⟩
        else .ok ⟨false, none, none, false⟩

/-- Guard condition of each checkpoint of the cascade, read off the source
independent of the control flow, as a specification to compare against. -/
def exit_checkpoint_fires (cfg : ExitConfig) (c : Candidate)
    (pnl_pct hours_since_entry : ℚ) (spy_change : Option ℚ) : Nat → Bool
  | 1 => pnl_pct ≤ cfg.EXIT_HARD_STOP_PCT
  | 2 => match exit_peak_pnl c pnl_pct with
         | some pk => cfg.EXIT_PROFIT_TAKE_PCT ≤ pk ∧
                      cfg.EXIT_DRAWDOWN_FROM_PEAK_PCT ≤ pk - pnl_pct
         | none => false
  | 3 => cfg.EXIT_PROFIT_STRONG_PCT ≤ pnl_pct
  | 4 => c.direction == .LONG && crash_signal cfg spy_change
  | 5 => cfg.EXIT_TIME_LIMIT_HOURS < hours_since_entry ∧ pnl_pct < 5
  | 6 => pnl_pct ≤ cfg.EXIT_SOFT_STOP_PCT
  | _ => false

/-- The first checkpoint, in the order 1, 2, 3, 4, 5, 6, whose guard holds;
`none` when no guard holds. -/
def first_fired (cfg : ExitConfig) (c : Candidate)
    (pnl_pct hours_since_entry : ℚ) (spy_change : Option ℚ) : Option Nat :=
  if exit_checkpoint_fires cfg c pnl_pct hours_since_entry spy_change 1 then some 1
  else if exit_checkpoint_fires cfg c pnl_pct hours_since_entry spy_change 2 then some 2
  else if exit_checkpoint_fires cfg c pnl_pct hours_since_entry spy_change 3 then some 3
  else if exit_checkpoint_fires cfg c pnl_pct hours_since_entry spy_change 4 then some 4
  else if exit_checkpoint_fires cfg c pnl_pct hours_since_entry spy_change 5 then some 5
  else if exit_checkpoint_fires cfg c pnl_pct hours_since_entry spy_change 6 then some 6
  else none

/-- Structured advisory verdict returned by `llm_trader.assess_position`.
Fields are optional; `monitor_position` applies the defaults
(`HOLD`, `5`, `intact`) with `.get(...)`. -/
structure Verdict where
  decision : Option RawDecision
  conviction_score : Option ℤ
  thesis_status : Option ThesisStatus
deriving DecidableEq, Repr

/-- One `trader_journal` row, restricted to the fields the claims mention.
`mechanical` marks the `mechanical_override` entries written by
`execute_mechanical_exit`. -/
structure JournalEntry where
  cycle_number : Nat
  decision : RawDecision
  conviction_score : ℤ
  pnl_pct : ℚ
  hours_since_entry : ℚ
  mechanical : Bool
deriving DecidableEq, Repr

/-- External inputs of one `monitor_position` cycle: the fetched price, the
cached benchmark change, the advisory verdict (or `none` on failure), the
stored snapshot P&L history, and the next journal cycle number. -/
structure MonitorEnv where
  now : ℚ
  price_data : Option ℚ
  spy_change : Option ℚ
  llm_result : Option Verdict
  snapshots : List ℚ
  next_cycle : Nat
deriving DecidableEq, Repr

/-- Effect of one `monitor_position` call: the updated candidate row, the
journal rows appended, the returned decision (`none` models Python `None`),
and whether the advisory model was consulted. -/
structure MonitorResult where
  candidate : Candidate
  journal : List JournalEntry
  decision : Option RawDecision
  llm_called : Bool
deriving DecidableEq, Repr

/-- Embeds `_get_position_metrics`: peak gain and max drawdown over the
stored snapshot P&L values, starting from 0. -/
def _get_position_metrics (snapshots : List ℚ) : ℚ × ℚ :=
  (snapshots.foldl max 0, snapshots.foldl min 0)

/-- Reference time of a WATCH review:
`candidate.get("dd_approved_at") or candidate.get("state_changed_at")`. -/
def monitor_ref_time (c : Candidate) : Option (Option ℚ) :=
  match c.dd_approved_at with
  | none => c.state_changed_at
  | some t => some t

/-- The P&L percentage `monitor_position` computes at step 2: relative to
`dd_approved_price` (falling back to the current price) while watching,
relative to `entry_price` once entered; `None` coalesced to 0. -/
def monitor_pnl (c : Candidate) (current_price : ℚ) : ℚ :=
  if c.state = .WATCH then
    (calculate_pnl (if truthy c.dd_approved_price then c.dd_approved_price else some current_price)
      (some current_price) c.direction).getD 0
  else
    (calculate_pnl c.entry_price (some current_price) c.direction).getD 0

/-- The `hours_since_entry` value `monitor_position` computes at step 2
(0 when the reference time is missing or unparseable). -/
def monitor_hours (c : Candidate) (now : ℚ) : ℚ :=
  if c.state = .WATCH then
    match monitor_ref_time c with
    | some (some t) => (now - t) / 3600
    | _ => 0
  else
    match c.entry_time with
    | some (some t) => (now - t) / 3600
    | _ => 0

/-- Embeds `execute_mechanical_exit`: kill the position, record the exit
fields, and append one `mechanical_override` journal entry.  It does not touch
`last_monitor_at`, `monitor_count` or `current_conviction`. -/
def execute_mechanical_exit (c : Candidate) (current_price pnl_pct hours_since_entry : ℚ)
    (exit_type : ExitType) (next_cycle : Nat) (now : ℚ) : MonitorResult :=
  { candidate :=
      { c with
        state := .KILLED
        state_changed_at := some (some now)
        killed_by := some .mechanical
        exit_price := some current_price
        exit_time := some now
        exit_pnl_pct := some (round2 pnl_pct)
        total_held_hours := some (round1 hours_since_entry) }
    journal := [⟨next_cycle, exit_type.toDecision, 0, round2 pnl_pct, round1 hours_since_entry, true⟩]
    decision := some exit_type.toDecision
    llm_called := false }

/-- The WATCH-mode remapping of the raw advisory decision in
`monitor_position` (step 4): `TAKE_PROFIT`/`CUT_LOSS` make no sense before
entry and are re-read as pounce / abandon / keep watching; `REDUCE` and
`ESCALATE` do not apply to WATCH. -/
def watch_decision_remap (decision : RawDecision) (conviction : ℤ) (velocity : Velocity)
    (thesis_status : ThesisStatus) : RawDecision :=
  match decision with
  | .TAKE_PROFIT | .CUT_LOSS =>
    if 7 ≤ conviction ∧ (velocity = .propagating ∨ velocity = .mainstream) then .ENTER
    else if conviction ≤ 3 ∨ thesis_status = .invalidated then .KILL
    else .HOLD
  | .ENTER => .ENTER
  | .REDUCE | .ESCALATE => .HOLD
  | d => d

/-- Steps 3-7 of `monitor_position`: consult the advisory model, log one
journal entry, update the monitoring metadata, and apply the decision. -/
def monitor_llm_phase (c : Candidate) (env : MonitorEnv)
    (current_price pnl_pct hours_since_entry : ℚ) (is_watching : Bool) : MonitorResult :=
  match env.llm_result with
  | none => ⟨c, [], none, true⟩
  | some r =>
    let conviction := r.conviction_score.getD 5
    let thesis_status := r.thesis_status.getD .intact
    let velocity := c.signal_velocity.getD .quiet
    let decision :=
      if is_watching then
        watch_decision_remap (r.decision.getD .HOLD) conviction velocity thesis_status
      else r.decision.getD .HOLD
    let entry : JournalEntry :=
      ⟨env.next_cycle, decision, conviction, round2 pnl_pct, round1 hours_since_entry, false⟩
    let c1 :=
      { c with
        last_monitor_at := some (some env.now)
        monitor_count := some (c.monitor_count.getD 0 + 1)
        current_conviction := some conviction }
    let c2 :=
      if decision = .ENTER ∧ is_watching = true then
        { c1 with
          state := .ACTIVE
          state_changed_at := some (some env.now)
          entry_price := some current_price
          entry_time := some (some env.now) }
      else if decision = .KILL ∧ is_watching = true then
        { c1 with
          state := .KILLED
          state_changed_at := some (some env.now)
          killed_by := some .monitor }
      else if (decision = .TAKE_PROFIT ∨ decision = .CUT_LOSS) ∧ is_watching = false then
        { c1 with
          state := .KILLED
          state_changed_at := some (some env.now)
          killed_by := some .monitor
          exit_price := some current_price
          exit_time := some env.now
          exit_pnl_pct := some (round2 pnl_pct)
          total_held_hours := some (round1 hours_since_entry) }
      else c1
    ⟨c2, [entry], some decision, true⟩

/-- Embeds `position_monitor.monitor_position`: one monitoring cycle.  The
candidate must be an active WATCH/ACTIVE/PUBLISH row; a missing price aborts
the cycle with no effect; the mechanical exit cascade runs before the
advisory step for entered positions; the `.error` case propagates the
`TypeError` of `check_mechanical_exits` (caught by the caller, leaving the
row unchanged). -/
def monitor_position (cfg : ExitConfig) (c : Candidate) (env : MonitorEnv) :
    Except Unit MonitorResult :=
  if ¬((c.state = .WATCH ∨ c.state = .ACTIVE ∨ c.state = .PUBLISH) ∧ c.is_active = true) then
    .ok ⟨c, [], none, false⟩
  else
    match env.price_data with
    | none => .ok ⟨c, [], none, false⟩
    | some current_price =>
      let is_watching : Bool := decide (c.state = .WATCH)
      let pnl_pct := monitor_pnl c current_price
      let hours_since_entry := monitor_hours c env.now
      if is_watching = false ∧ truthy c.entry_price = true then
        match check_mechanical_exits cfg c (some current_price) pnl_pct hours_since_entry
            env.spy_change with
        | .error e => .error e
        | .ok d =>
          if d.should_exit = true ∧ d.skip_llm = true then
            .ok (execute_mechanical_exit c current_price pnl_pct hours_since_entry
              (d.exit_type.getD .cut_loss) env.next_cycle env.now)
          else
            .ok (monitor_llm_phase c env current_price pnl_pct hours_since_entry is_watching)
      else
        .ok (monitor_llm_phase c env current_price pnl_pct hours_since_entry is_watching)

/-- Decision vocabulary of the due-diligence engine
(`make_trade_decision` / the advisory override). -/
inductive DDDecision
  | TRADE
  | WATCH
  | KILL
  | PUBLISH
deriving DecidableEq, Repr

/-- Embeds step 6 of `trader.run_due_diligence` (apply decision): TRADE and
PUBLISH park the candidate in WATCH recording `dd_approved_price`
(`current_price or report_price`); a WATCH decision re-enters WATCH bumping
`watch_checks`; KILL is terminal. -/
def run_due_diligence_apply (c : Candidate) (decision : DDDecision)
    (current_price report_price : Option ℚ) (now : ℚ) : Candidate :=
  match decision with
  | .TRADE | .PUBLISH =>
    let dd_price := if truthy current_price then current_price else report_price
    { c with
      state := .WATCH
      state_changed_at := some (some now)
      dd_approved_price := dd_price
      dd_approved_at := some (some now) }
  | .WATCH =>
    { c with
      state := .WATCH
      state_changed_at := some (some now)
      watch_checks := c.watch_checks + 1 }
  | .KILL =>
    { c with
      state := .KILLED
      state_changed_at := some (some now)
      killed_by := some .dd }

/-- `config.MAX_WATCH_CHECKS`. -/
def MAX_WATCH_CHECKS : Nat := 5

/-- The auto-kill branch of `trader.recheck_watched`. -/
def recheck_auto_kill (c : Candidate) (now : ℚ) : Candidate :=
  { c with
    state := .KILLED
    state_changed_at := some (some now)
    killed_by := some .auto_expire }

/-- Embeds the per-candidate body of `trader.recheck_watched`: a WATCH row at
or past the `MAX_WATCH_CHECKS` ceiling is killed before due diligence runs;
otherwise due diligence runs and its decision is applied.  The boolean records
whether due diligence (and hence the advisory model) was consulted. -/
def recheck_watched_step (c : Candidate) (ddDecision : DDDecision)
    (current_price report_price : Option ℚ) (now : ℚ) : Candidate × Bool :=
  if MAX_WATCH_CHECKS ≤ c.watch_checks then (recheck_auto_kill c now, false)
  else (run_due_diligence_apply c ddDecision current_price report_price now, true)

/-- Embeds `tracker.deactivate_expired` on one row past its tracking window:
deactivate, and expire PENDING/WATCH rows. -/
def deactivate_expired_step (c : Candidate) : Candidate :=
  { c with
    is_active := false
    state := if c.state = .PENDING ∨ c.state = .WATCH then .EXPIRED else c.state }

/-- Embeds the kill applied by `llm_trader` HIGH-confidence connection
verdicts (`state = 'KILLED', killed_by = 'llm'`). -/
def llm_kill_step (c : Candidate) (now : ℚ) : Candidate :=
  { c with
    state := .KILLED
    state_changed_at := some (some now)
    killed_by := some .llm }

/-- Embeds the peak/trough maintenance of `tracker.track_prices` (lines
310-328): for entered ACTIVE/PUBLISH rows, keep `peak_price`/`trough_price`
as the running extrema of observed prices. -/
def tracker_update_extrema (c : Candidate) (current_price : ℚ) : Candidate :=
  if (c.state = .ACTIVE ∨ c.state = .PUBLISH) ∧ truthy c.entry_price = true then
    let peak := if truthy c.peak_price then c.peak_price.getD current_price else current_price
    let trough := if truthy c.trough_price then c.trough_price.getD current_price else current_price
    { c with
      peak_price := if peak < current_price then some current_price
                    else if truthy c.peak_price then c.peak_price else some current_price
      trough_price := if current_price < trough then some current_price
                      else if truthy c.trough_price then c.trough_price else some current_price }
  else c

/-- A freshly inserted candidate row (`scanner.py`): PENDING (or KILLED when
no instrument exists), never entered, never DD-approved, counters at zero. -/
def InitCandidate (c : Candidate) : Prop :=
  (c.state = .PENDING ∨ c.state = .KILLED) ∧
  c.entry_price = none ∧ c.entry_time = none ∧
  c.dd_approved_price = none ∧ c.dd_approved_at = none ∧
  c.watch_checks = 0 ∧ c.monitor_count = none ∧
  c.last_monitor_at = none ∧ c.killed_by = none ∧
  c.exit_price = none ∧ c.exit_time = none ∧ c.exit_pnl_pct = none

/-- One mutation of a candidate row by any of the repository's writers, at
the states from which each writer is invoked. -/
inductive Step (cfg : ExitConfig) : Candidate → Candidate → Prop
  | dd (c : Candidate) (decision : DDDecision) (current_price report_price : Option ℚ)
      (now : ℚ) :
      (c.state = .PENDING ∨ c.state = .WATCH) → c.is_active = true →
      Step cfg c (run_due_diligence_apply c decision current_price report_price now)
  | recheck (c : Candidate) (decision : DDDecision) (current_price report_price : Option ℚ)
      (now : ℚ) :
      c.state = .WATCH → c.is_active = true →
      Step cfg c (recheck_watched_step c decision current_price report_price now).1
  | monitor (c : Candidate) (env : MonitorEnv) (r : MonitorResult) :
      monitor_position cfg c env = .ok r → Step cfg c r.candidate
  | expire (c : Candidate) : Step cfg c (deactivate_expired_step c)
  | llmKill (c : Candidate) (now : ℚ) :
      ¬(c.state = .KILLED ∨ c.state = .EXPIRED) → c.is_active = true →
      Step cfg c (llm_kill_step c now)
  | track (c : Candidate) (current_price : ℚ) :
      Step cfg c (tracker_update_extrema c current_price)

/-- A candidate row reachable from a fresh insertion through the writers. -/
def Reachable (cfg : ExitConfig) (c : Candidate) : Prop :=
  ∃ c₀, InitCandidate c₀ ∧ Relation.ReflTransGen (Step cfg) c₀ c

/-- Certainty buckets of the rule/backtest engine (`trading_rules.py`). -/
inductive Bucket
  | TRADING_CERTAINTY
  | HIGH_PROBABILITY
  | CONDITIONAL
  | AVOID
  | UNCLASSIFIED
deriving DecidableEq, Repr

/-- A position as seen by `validate_rules`: the classification fields written
by the rule pass plus the realized outcome (`report_pnl`, `None` when not
parseable). -/
structure RulePos where
  certainty_bucket : Option Bucket
  matched_rule : Option String
  report_pnl : Option ℚ
deriving DecidableEq, Repr

/-- Python `pnl is not None and pnl != 0`. -/
def nonzero_pnl : Option ℚ → Bool
  | some x => x != 0
  | none => false

/-- Membership in the `rule_groups` population of `validate_rules`:
TRADING_CERTAINTY bucket with a nonzero realized outcome. -/
def tc_member (p : RulePos) : Bool :=
  p.certainty_bucket == some .TRADING_CERTAINTY && nonzero_pnl p.report_pnl

/-- The group of a rule id inside `validate_rules`: the TRADING_CERTAINTY
positions with nonzero outcome matched to that rule, in input order. -/
def tc_rule_group (positions : List RulePos) (rule_id : Option String) : List RulePos :=
  positions.filter (fun p => tc_member p && p.matched_rule == rule_id)

/-- The aggregate `total_pnl` of a rule's group. -/
def tc_rule_sum (positions : List RulePos) (rule_id : Option String) : ℚ :=
  ((tc_rule_group positions rule_id).map (fun p => p.report_pnl.getD 0)).sum

/-- Embeds `trading_rules.validate_rules`, reduced to the rule ids it flags
(each violation dict is keyed by its rule id; the order of the returned list
is abstracted, its membership is faithful). -/
def validate_rules (positions : List RulePos) : List (Option String) :=
  (((positions.filter tc_member).map (fun p => p.matched_rule)).dedup).filter
    (fun rule_id => tc_rule_sum positions rule_id < 0)

/-- A template candidate row used to build concrete witnesses. -/
def baseCandidate : Candidate :=
  { state := .PENDING
    direction := .LONG
    is_active := true
    entry_price := none
    entry_time := none
    dd_approved_price := none
    dd_approved_at := none
    state_changed_at := some (some 0)
    peak_price := none
    trough_price := none
    watch_checks := 0
    monitor_count := none
    current_conviction := none
    last_monitor_at := none
    signal_velocity := none
    killed_by := none
    exit_price := none
    exit_time := none
    exit_pnl_pct := none
    total_held_hours := none }

/-- A concrete exit configuration for witnesses, with the threshold values the
specification's examples use. -/
def cfgW : ExitConfig := ⟨-15, -8, 8, 20, 8, 72, -3⟩

/-- A concrete entered ACTIVE long position (entry 100, entered at time 0). -/
def cA : Candidate :=
  { baseCandidate with
    state := .ACTIVE
    direction := .LONG
    entry_price := some 100
    entry_time := some (some 0) }

/-- A concrete monitoring cycle 100 hours in, price at 80 (P&L −20%). -/
def envA : MonitorEnv :=
  { now := 360000
    price_data := some 80
    spy_change := none
    llm_result := some ⟨some .HOLD, some 5, some .intact⟩
    snapshots := []
    next_cycle := 1 }

/-- The cascade answer for `cA`/`envA`: checkpoint 1 (hard stop) fires. -/
def dW : ExitCheck := ⟨true, some .cut_loss, some 1, true⟩

/-- The monitor outcome for `cA`/`envA`: a mechanical hard-stop exit. -/
def rA : MonitorResult := execute_mechanical_exit cA 80 (-20) 100 .cut_loss 1 360000

/-- A concrete WATCH candidate stalked with dd price 100, mainstream signal. -/
def cW2 : Candidate :=
  { baseCandidate with
    state := .WATCH
    direction := .LONG
    dd_approved_price := some 100
    dd_approved_at := some (some 0)
    signal_velocity := some .mainstream }

/-- A concrete review 10 hours in, price 110, advisory verdict HOLD with
conviction 9. -/
def envH : MonitorEnv :=
  { now := 36000
    price_data := some 110
    spy_change := none
    llm_result := some ⟨some .HOLD, some 9, some .intact⟩
    snapshots := []
    next_cycle := 1 }

/-- The monitor outcome for `cW2`/`envH`: the candidate stays in WATCH with
its metadata updated. -/
def rH : MonitorResult :=
  { candidate :=
      { cW2 with
        last_monitor_at := some (some 36000)
        monitor_count := some 1
        current_conviction := some 9 }
    journal := [⟨1, .HOLD, 9, 10, 10, false⟩]
    decision := some .HOLD
    llm_called := true }

/-- A TAKE_PROFIT verdict with conviction 9 — remapped for WATCH rows. -/
def vTP : Verdict := ⟨some .TAKE_PROFIT, some 9, some .intact⟩

/-- The review `envH` but with the raw advisory decision TAKE_PROFIT. -/
def envTP : MonitorEnv :=
  { now := 36000
    price_data := some 110
    spy_change := none
    llm_result := some vTP
    snapshots := []
    next_cycle := 1 }

/-- The monitor outcome for `cW2`/`envTP`: the pounce — promotion to ACTIVE
with entry price 110 and entry time now. -/
def rP : MonitorResult :=
  { candidate :=
      { cW2 with
        state := .ACTIVE
        state_changed_at := some (some 36000)
        entry_price := some 110
        entry_time := some (some 36000)
        last_monitor_at := some (some 36000)
        monitor_count := some 1
        current_conviction := some 9 }
    journal := [⟨1, .ENTER, 9, 10, 10, false⟩]
    decision := some .ENTER
    llm_called := true }

/-- A concrete entered MIXED-direction position. -/
def cM : Candidate :=
  { baseCandidate with
    state := .ACTIVE
    direction := .MIXED
    entry_price := some 100 }

/-- The cascade answer for a MIXED position past the time limit: only
checkpoint 5 fires. -/
def d5 : ExitCheck := ⟨true, some .take_profit, some 5, true⟩

/-- A candidate parked in WATCH by a WATCH due-diligence decision: no
`dd_approved_price` is recorded on this path. -/
def cWnoDD : Candidate := run_due_diligence_apply baseCandidate .WATCH (some 10) (some 10) 0

/-- When `first_fired` selects a checkpoint, that checkpoint's guard holds and
every earlier checkpoint's guard fails. -/
theorem first_fired_spec (cfg : ExitConfig) (c : Candidate)
    (pnl_pct hours_since_entry : ℚ) (spy_change : Option ℚ) (k : Nat)
    (h : first_fired cfg c pnl_pct hours_since_entry spy_change = some k) :
    exit_checkpoint_fires cfg c pnl_pct hours_since_entry spy_change k = true ∧
    ∀ j, 1 ≤ j → j < k →
      exit_checkpoint_fires cfg c pnl_pct hours_since_entry spy_change j = false := by
  unfold first_fired at h
  split_ifs at h with f1 f2 f3 f4 f5 f6 <;>
    (injection h with h; subst h;
     refine ⟨by assumption, ?_⟩;
     intro j hj1 hjk; interval_cases j <;> simp_all)

/-- C6: the movement calculator is a pure function (it is a Lean `def` of its
two arguments alone) and returns the null movement value 0 whenever the
reference price is missing, the current price is missing, or the reference
price is zero. -/
theorem price_moved_pct_soft_fail (report_price current_price : Option ℚ)
    (h : report_price = none ∨ current_price = none ∨ report_price = some 0) :
    price_moved_pct report_price current_price = 0 := by
  rcases h with h | h | h <;> subst h <;> simp [price_moved_pct, truthy]

/-- Witness for C6: a missing current price yields zero movement. -/
theorem price_moved_pct_soft_fail_witness :
    (some (7 : ℚ) = none ∨ (none : Option ℚ) = none ∨ some (7 : ℚ) = some 0) ∧
    price_moved_pct (some 7) none = 0 :=
  ⟨Or.inr (Or.inl rfl), price_moved_pct_soft_fail (some 7) none (Or.inr (Or.inl rfl))⟩

/-- C8: the velocity classifier is monotone in the 24-hour hit count — for two
article populations with the same number of major-source hits, more hits never
yield a lower ordinal velocity level. -/
theorem compute_velocity_monotone_in_hits (l1 l2 : List Article)
    (hm : major_hits l1 = major_hits l2) (hl : l1.length ≤ l2.length) :
    (compute_velocity l1).1.level ≤ (compute_velocity l2).1.level := by
  by_cases h1 : l1.isEmpty
  · simp only [compute_velocity, h1, if_true]
    split_ifs <;> simp [Velocity.level]
  · by_cases h2 : l2.isEmpty
    · exact absurd (List.isEmpty_iff.mpr (List.length_eq_zero.mp
        (Nat.le_zero.mp (by simpa [List.isEmpty_iff.mp h2] using hl)))) h1
    · simp only [compute_velocity, h1, h2, if_false]
      split_ifs <;> simp [Velocity.level] <;> omega

/-- Witness for C8: one niche hit versus three niche hits. -/
theorem compute_velocity_monotone_in_hits_witness :
    major_hits [⟨false⟩] = major_hits [⟨false⟩, ⟨false⟩, ⟨false⟩] ∧
    (compute_velocity [⟨false⟩]).1.level ≤
      (compute_velocity [⟨false⟩, ⟨false⟩, ⟨false⟩]).1.level :=
  ⟨by decide, compute_velocity_monotone_in_hits _ _ (by decide) (by decide)⟩

/-- C5: rule validation flags a TRADING_CERTAINTY rule exactly when the sum of
the nonzero realized outcomes of the positions it matched is negative — never
for a group with losing members but nonnegative aggregate, always for a group
with negative aggregate. -/
theorem validate_rules_iff_negative_sum (positions : List RulePos) (rule_id : Option String) :
    rule_id ∈ validate_rules positions ↔ tc_rule_sum positions rule_id < 0 := by
  unfold validate_rules
  rw [List.mem_filter]
  constructor
  · rintro ⟨-, h⟩
    simpa using h
  · intro h
    refine ⟨?_, by simpa using h⟩
    rw [List.mem_dedup, List.mem_map]
    by_contra hc
    have hgroup : tc_rule_group positions rule_id = [] := by
      rw [tc_rule_group, List.filter_eq_nil_iff]
      intro p hp hpp
      simp only [Bool.and_eq_true, beq_iff_eq] at hpp
      exact hc ⟨p, List.mem_filter.mpr ⟨hp, by simp [hpp.1]⟩, hpp.2⟩
    have hsum0 : tc_rule_sum positions rule_id = 0 := by
      simp [tc_rule_sum, hgroup]
    rw [hsum0] at h
    exact absurd h (lt_irrefl 0)

/-- C3: a WATCH candidate whose `watch_checks` counter has reached the
`MAX_WATCH_CHECKS` ceiling is killed by the next watch recheck before due
diligence runs, whatever the advisory decision would have been. -/
theorem watch_checks_ceiling_forces_kill (c : Candidate) (decision : DDDecision)
    (current_price report_price : Option ℚ) (now : ℚ)
    (hw : c.state = .WATCH) (hk : MAX_WATCH_CHECKS ≤ c.watch_checks) :
    (recheck_watched_step c decision current_price report_price now).1.state = .KILLED ∧
    (recheck_watched_step c decision current_price report_price now).1.killed_by =
      some .auto_expire ∧
    (recheck_watched_step c decision current_price report_price now).2 = false := by
  simp [recheck_watched_step, hk, recheck_auto_kill]

/-- Witness for C3: a WATCH row with five checks is auto-killed even though
the pending advisory decision was TRADE. -/
theorem watch_checks_ceiling_forces_kill_witness :
    ({ baseCandidate with state := .WATCH, watch_checks := 5 } : Candidate).state = .WATCH ∧
    MAX_WATCH_CHECKS ≤ ({ baseCandidate with state := .WATCH, watch_checks := 5 } : Candidate).watch_checks ∧
    (recheck_watched_step { baseCandidate with state := .WATCH, watch_checks := 5 }
      .TRADE (some 10) (some 10) 0).1.state = .KILLED :=
  ⟨rfl, by decide,
    (watch_checks_ceiling_forces_kill { baseCandidate with state := .WATCH, watch_checks := 5 }
      .TRADE (some 10) (some 10) 0 rfl (by decide)).1⟩

/-- Any `ok` result of the cascade: a checkpoint among 1..5 always carries a
forced exit that skips the advisory step, a forced exit always comes from a
checkpoint among 1..5, and a reported checkpoint implies both prices passed
the truthiness guard. -/
theorem check_mechanical_exits_flags (cfg : ExitConfig) (c : Candidate)
    (current_price : Option ℚ) (pnl_pct hours_since_entry : ℚ) (spy_change : Option ℚ)
    (d : ExitCheck)
    (hok : check_mechanical_exits cfg c current_price pnl_pct hours_since_entry spy_change = .ok d) :
    (∀ k, d.checkpoint = some k → k ≤ 5 → d.should_exit = true ∧ d.skip_llm = true) ∧
    (d.should_exit = true → ∃ k, d.checkpoint = some k ∧ k ≤ 5) ∧
    (∀ k, d.checkpoint = some k →
      truthy c.entry_price = true ∧ truthy current_price = true) := by
  unfold check_mechanical_exits at hok
  split at hok
  case isTrue hg =>
    injection hok with hok; subst hok
    simp
  case isFalse hg =>
    simp only [Bool.or_eq_true, Bool.not_eq_true', not_or, Bool.not_eq_false] at hg
    obtain ⟨hg1, hg2⟩ := hg
    split at hok
    case isTrue h1 =>
      injection hok with hok; subst hok
      exact ⟨by simp, by simp, fun k _ => ⟨hg1, hg2⟩⟩
    case isFalse h1 =>
      split at hok
      case h_1 heq => exact absurd hok (by simp)
      case h_2 pk heq =>
        split at hok
        case isTrue h2 =>
          injection hok with hok; subst hok
          exact ⟨by simp, by simp, fun k _ => ⟨hg1, hg2⟩⟩
        case isFalse h2 =>
          split at hok
          case isTrue h3 =>
            injection hok with hok; subst hok
            exact ⟨by simp, by simp, fun k _ => ⟨hg1, hg2⟩⟩
          case isFalse h3 =>
            split at hok
            case isTrue h4 =>
              injection hok with hok; subst hok
              exact ⟨by simp, by simp, fun k _ => ⟨hg1, hg2⟩⟩
            case isFalse h4 =>
              split at hok
              case isTrue h5 =>
                injection hok with hok; subst hok
                exact ⟨by simp, by simp, fun k _ => ⟨hg1, hg2⟩⟩
              case isFalse h5 =>
                split at hok
                case isTrue h6 =>
                  injection hok with hok; subst hok
                  exact ⟨by simp, by simp, fun k _ => ⟨hg1, hg2⟩⟩
                case isFalse h6 =>
                  injection hok with hok; subst hok
                  exact ⟨by simp, by simp, fun k _ => ⟨hg1, hg2⟩⟩

/-- On truthy prices, the checkpoint the cascade reports is exactly the first
checkpoint, in the order 1..6, whose guard condition holds. -/
theorem check_mechanical_exits_checkpoint (cfg : ExitConfig) (c : Candidate)
    (current_price : Option ℚ) (pnl_pct hours_since_entry : ℚ) (spy_change : Option ℚ)
    (d : ExitCheck)
    (he : truthy c.entry_price = true) (hcp : truthy current_price = true)
    (hok : check_mechanical_exits cfg c current_price pnl_pct hours_since_entry spy_change = .ok d) :
    d.checkpoint = first_fired cfg c pnl_pct hours_since_entry spy_change := by
  unfold check_mechanical_exits at hok
  simp only [he, hcp, Bool.not_true, Bool.or_self, Bool.false_eq_true, if_false] at hok
  split at hok
  case isTrue h1 =>
    injection hok with hok; subst hok
    simp [first_fired, exit_checkpoint_fires, h1]
  case isFalse h1 =>
    split at hok
    case h_1 heq => exact absurd hok (by simp)
    case h_2 pk heq =>
      split at hok
      case isTrue h2 =>
        injection hok with hok; subst hok
        simp [first_fired, exit_checkpoint_fires, h1, heq, h2]
      case isFalse h2 =>
        split at hok
        case isTrue h3 =>
          injection hok with hok; subst hok
          simp [first_fired, exit_checkpoint_fires, h1, heq, h2, h3]
        case isFalse h3 =>
          split at hok
          case isTrue h4 =>
            injection hok with hok; subst hok
            simp [first_fired, exit_checkpoint_fires, h1, heq, h2, h3, h4]
          case isFalse h4 =>
            split at hok
            case isTrue h5 =>
              injection hok with hok; subst hok
              simp [first_fired, exit_checkpoint_fires, h1, heq, h2, h3, h4, h5]
            case isFalse h5 =>
              split at hok
              case isTrue h6 =>
                injection hok with hok; subst hok
                simp [first_fired, exit_checkpoint_fires, h1, heq, h2, h3, h4, h5, h6]
              case isFalse h6 =>
                injection hok with hok; subst hok
                simp [first_fired, exit_checkpoint_fires, h1, heq, h2, h3, h4, h5, h6]

/-- When the cascade (evaluated at the monitor's own P&L and holding-hours
inputs) fires a checkpoint among 1..5, the monitoring cycle is exactly a
mechanical exit: the advisory model is never consulted and the row is killed
by the mechanical system. -/
theorem monitor_executes_mechanical_exit (cfg : ExitConfig) (c : Candidate) (env : MonitorEnv)
    (r : MonitorResult) (d : ExitCheck) (k : Nat) (cp : ℚ)
    (hmon : monitor_position cfg c env = .ok r)
    (hstate : c.state = .ACTIVE ∨ c.state = .PUBLISH)
    (hact : c.is_active = true)
    (hprice : env.price_data = some cp)
    (hchk : check_mechanical_exits cfg c (some cp) (monitor_pnl c cp) (monitor_hours c env.now)
      env.spy_change = .ok d)
    (hk : d.checkpoint = some k) (hk5 : k ≤ 5) :
    r = execute_mechanical_exit c cp (monitor_pnl c cp) (monitor_hours c env.now)
          (d.exit_type.getD .cut_loss) env.next_cycle env.now ∧
    r.llm_called = false ∧ r.candidate.state = .KILLED ∧
    r.candidate.killed_by = some .mechanical ∧
    r.decision = some ((d.exit_type.getD .cut_loss).toDecision) := by
  obtain ⟨hflag, -, hentry⟩ := check_mechanical_exits_flags cfg c (some cp) (monitor_pnl c cp)
    (monitor_hours c env.now) env.spy_change d hchk
  obtain ⟨hse, hsl⟩ := hflag k hk hk5
  obtain ⟨he, -⟩ := hentry k hk
  have hnw : ¬ c.state = CState.WATCH := by
    rcases hstate with h | h <;> simp [h]
  have hwb : (decide (c.state = CState.WATCH)) = false := decide_eq_false hnw
  unfold monitor_position at hmon
  rw [if_neg (not_not_intro ⟨Or.inr hstate, hact⟩)] at hmon
  rw [hprice] at hmon
  simp only [hwb, he, and_self, if_true] at hmon
  rw [hchk] at hmon
  simp only [hse, hsl, and_self, if_true] at hmon
  injection hmon with hmon
  subst hmon
  exact ⟨rfl, rfl, rfl, rfl, rfl⟩

/-- C1: on an ACTIVE/PUBLISH candidate with a known entry price, the
mechanical exit cascade evaluates its six checkpoints strictly in the order
hard stop, profit protection, strong profit, market crash, time limit, soft
stop: for any P&L/peak/hours input the reported checkpoint is exactly the
first one (or none) whose guard holds, so at most one fires and first match
wins; and whenever one of checkpoints 1-5 fires, the position monitor
executes the exit and returns without consulting the advisory model. -/
theorem mechanical_exit_cascade_order_and_no_override :
    (∀ cfg c current_price pnl_pct hours_since_entry spy_change d,
      truthy c.entry_price = true → truthy current_price = true →
      check_mechanical_exits cfg c current_price pnl_pct hours_since_entry spy_change = .ok d →
      d.checkpoint = first_fired cfg c pnl_pct hours_since_entry spy_change ∧
      (∀ k, d.checkpoint = some k →
        exit_checkpoint_fires cfg c pnl_pct hours_since_entry spy_change k = true ∧
        ∀ j, 1 ≤ j → j < k →
          exit_checkpoint_fires cfg c pnl_pct hours_since_entry spy_change j = false) ∧
      (∀ k, d.checkpoint = some k → k ≤ 5 → d.should_exit = true ∧ d.skip_llm = true)) ∧
    (∀ cfg c env r d k cp,
      monitor_position cfg c env = .ok r →
      (c.state = .ACTIVE ∨ c.state = .PUBLISH) → c.is_active = true →
      env.price_data = some cp →
      check_mechanical_exits cfg c (some cp) (monitor_pnl c cp) (monitor_hours c env.now)
        env.spy_change = .ok d →
      d.checkpoint = some k → k ≤ 5 →
      r.llm_called = false ∧ r.candidate.state = .KILLED ∧
      r.candidate.killed_by = some .mechanical ∧ r.decision ≠ none) := by
  constructor
  · intro cfg c current_price pnl_pct hours_since_entry spy_change d he hcp hok
    have h1 := check_mechanical_exits_checkpoint cfg c current_price pnl_pct hours_since_entry
      spy_change d he hcp hok
    refine ⟨h1, ?_, (check_mechanical_exits_flags cfg c current_price pnl_pct hours_since_entry
      spy_change d hok).1⟩
    intro k hk
    exact first_fired_spec cfg c pnl_pct hours_since_entry spy_change k (h1.symm.trans hk)
  · intro cfg c env r d k cp hmon hstate hact hprice hchk hk hk5
    obtain ⟨-, h2, h3, h4, h5⟩ := monitor_executes_mechanical_exit cfg c env r d k cp
      hmon hstate hact hprice hchk hk hk5
    exact ⟨h2, h3, h4, by simp [h5]⟩

/-- Witness for C1: for the concrete hard-stop cycle `cA`/`envA` the cascade
fires checkpoint 1 and the monitor kills the row without an advisory call. -/
theorem mechanical_exit_cascade_order_and_no_override_witness :
    rA.llm_called = false ∧ rA.candidate.state = .KILLED ∧
    rA.candidate.killed_by = some .mechanical ∧ rA.decision ≠ none := by
  have hfl : (⌊(-2000 : ℚ) + 2⁻¹⌋ : ℤ) = -2000 := by norm_num
  have hpnl : monitor_pnl cA 80 = -20 := by
    norm_num [monitor_pnl, cA, baseCandidate, calculate_pnl, truthy, round2, round_eq]
    simp
  have hhrs : monitor_hours cA envA.now = 100 := by
    norm_num [monitor_hours, cA, envA, baseCandidate]
    simp
  have hchk : check_mechanical_exits cfgW cA (some 80) (monitor_pnl cA 80)
      (monitor_hours cA envA.now) envA.spy_change = .ok dW := by
    rw [hpnl, hhrs]
    norm_num [check_mechanical_exits, cfgW, cA, dW, baseCandidate, truthy, exit_peak_pnl, envA]
  have hmon : monitor_position cfgW cA envA = .ok rA := by
    norm_num [monitor_position, monitor_pnl, monitor_hours, monitor_ref_time, calculate_pnl,
      truthy, round2, round1, round_eq, check_mechanical_exits, exit_peak_pnl, crash_signal,
      execute_mechanical_exit, cfgW, cA, envA, rA, baseCandidate, hfl]
    simp only [reduceCtorEq, if_false, reduceIte]
    norm_num [hfl]
  exact mechanical_exit_cascade_order_and_no_override.2 cfgW cA envA rA dW 1 80
    hmon (Or.inl rfl) rfl rfl hchk rfl (by norm_num)

/-- Every successful `monitor_position` call is one of: an aborted cycle with
no effect, a mechanical exit on a non-WATCH row, or an advisory phase. -/
theorem monitor_position_shape (cfg : ExitConfig) (c : Candidate) (env : MonitorEnv)
    (r : MonitorResult) (hok : monitor_position cfg c env = .ok r) :
    r = ⟨c, [], none, false⟩ ∨
    (∃ cp et, env.price_data = some cp ∧ c.state ≠ .WATCH ∧
      r = execute_mechanical_exit c cp (monitor_pnl c cp) (monitor_hours c env.now) et
            env.next_cycle env.now) ∨
    (∃ cp, env.price_data = some cp ∧
      r = monitor_llm_phase c env cp (monitor_pnl c cp) (monitor_hours c env.now)
            (decide (c.state = .WATCH))) := by
  unfold monitor_position at hok
  split at hok
  case isTrue hg =>
    injection hok with hok; subst hok; exact Or.inl rfl
  case isFalse hg =>
    split at hok
    case h_1 => injection hok with hok; subst hok; exact Or.inl rfl
    case h_2 cp hcp =>
      dsimp only [] at hok
      split at hok
      case isTrue hmech =>
        obtain ⟨hnw, hentry⟩ := hmech
        split at hok
        case h_1 e heq => exact absurd hok (by simp)
        case h_2 d heq =>
          split at hok
          case isTrue hse =>
            injection hok with hok; subst hok
            refine Or.inr (Or.inl ⟨cp, d.exit_type.getD .cut_loss, hcp, ?_, rfl⟩)
            intro hwatch
            rw [decide_eq_true hwatch] at hnw
            exact absurd hnw (by simp)
          case isFalse hse =>
            injection hok with hok; subst hok
            exact Or.inr (Or.inr ⟨cp, hcp, rfl⟩)
      case isFalse hmech =>
        injection hok with hok; subst hok
        exact Or.inr (Or.inr ⟨cp, hcp, rfl⟩)

/-- Shape of the advisory phase: with no verdict it has no effect (but the
advisory model was called); with a verdict it writes exactly one journal entry,
updates the monitoring metadata, and either promotes (ENTER while watching),
kills, or leaves state and entry fields unchanged. -/
theorem monitor_llm_phase_spec (c : Candidate) (env : MonitorEnv) (cp pnl hours : ℚ) (w : Bool) :
    (env.llm_result = none ∧ monitor_llm_phase c env cp pnl hours w = ⟨c, [], none, true⟩) ∨
    (∃ v, env.llm_result = some v ∧
      (monitor_llm_phase c env cp pnl hours w).llm_called = true ∧
      (monitor_llm_phase c env cp pnl hours w).journal.length = 1 ∧
      (monitor_llm_phase c env cp pnl hours w).decision ≠ none ∧
      (monitor_llm_phase c env cp pnl hours w).candidate.last_monitor_at = some (some env.now) ∧
      (monitor_llm_phase c env cp pnl hours w).candidate.monitor_count =
        some (c.monitor_count.getD 0 + 1) ∧
      (monitor_llm_phase c env cp pnl hours w).candidate.current_conviction =
        some (v.conviction_score.getD 5) ∧
      ((monitor_llm_phase c env cp pnl hours w).candidate.state = .ACTIVE ∧ w = true ∧
          (monitor_llm_phase c env cp pnl hours w).candidate.entry_price = some cp ∧
          (monitor_llm_phase c env cp pnl hours w).candidate.entry_time = some (some env.now) ∧
          (monitor_llm_phase c env cp pnl hours w).decision = some .ENTER ∨
        (monitor_llm_phase c env cp pnl hours w).candidate.state = .KILLED ∧
          (monitor_llm_phase c env cp pnl hours w).candidate.entry_price = c.entry_price ∧
          (monitor_llm_phase c env cp pnl hours w).candidate.entry_time = c.entry_time ∨
        (monitor_llm_phase c env cp pnl hours w).candidate.state = c.state ∧
          (monitor_llm_phase c env cp pnl hours w).candidate.entry_price = c.entry_price ∧
          (monitor_llm_phase c env cp pnl hours w).candidate.entry_time = c.entry_time)) := by
  rcases hE : env.llm_result with _ | v
  · exact Or.inl ⟨rfl, by simp [monitor_llm_phase, hE]⟩
  · right
    refine ⟨v, rfl, ?_⟩
    simp only [monitor_llm_phase, hE]
    split_ifs with h1 h2 h3 <;>
      simp_all

/-- A monitoring cycle on an active WATCH row with a fetched price is exactly
the advisory phase: no mechanical cascade applies. -/
theorem monitor_position_watch (cfg : ExitConfig) (c : Candidate) (env : MonitorEnv) (cp : ℚ)
    (hw : c.state = .WATCH) (hact : c.is_active = true)
    (hprice : env.price_data = some cp) :
    monitor_position cfg c env =
      .ok (monitor_llm_phase c env cp (monitor_pnl c cp) (monitor_hours c env.now) true) := by
  have hwb : (decide (c.state = CState.WATCH)) = true := by simp [hw]
  unfold monitor_position
  rw [if_neg (not_not_intro ⟨Or.inl hw, hact⟩), hprice]
  dsimp only []
  rw [hwb]
  simp

/-- Rows in PENDING or WATCH never carry an entry price or entry time, over
every reachable candidate. -/
theorem reachable_no_entry_before_active (cfg : ExitConfig) (c : Candidate)
    (hr : Reachable cfg c) :
    (c.state = .PENDING ∨ c.state = .WATCH) → c.entry_price = none ∧ c.entry_time = none := by
  obtain ⟨c0, h0, hsteps⟩ := hr
  induction hsteps with
  | refl => exact fun _ => ⟨h0.2.1, h0.2.2.1⟩
  | tail hab hbc ih =>
    rename_i b c'
    cases hbc with
    | dd decision cp rp now hstate hact =>
      cases decision with
      | TRADE =>
        intro _
        obtain ⟨h1, h2⟩ := ih hstate
        simp [run_due_diligence_apply, h1, h2]
      | PUBLISH =>
        intro _
        obtain ⟨h1, h2⟩ := ih hstate
        simp [run_due_diligence_apply, h1, h2]
      | WATCH =>
        intro _
        obtain ⟨h1, h2⟩ := ih hstate
        simp [run_due_diligence_apply, h1, h2]
      | KILL =>
        intro h
        simp [run_due_diligence_apply] at h
    | recheck decision cp rp now hstate hact =>
      unfold recheck_watched_step
      split
      · intro h
        simp [recheck_auto_kill] at h
      · cases decision with
        | TRADE =>
          intro _
          obtain ⟨h1, h2⟩ := ih (Or.inr hstate)
          simp [run_due_diligence_apply, h1, h2]
        | PUBLISH =>
          intro _
          obtain ⟨h1, h2⟩ := ih (Or.inr hstate)
          simp [run_due_diligence_apply, h1, h2]
        | WATCH =>
          intro _
          obtain ⟨h1, h2⟩ := ih (Or.inr hstate)
          simp [run_due_diligence_apply, h1, h2]
        | KILL =>
          intro h
          simp [run_due_diligence_apply] at h
    | monitor env r hok =>
      rcases monitor_position_shape cfg b env r hok with h | ⟨cp, et, hcp, hnw, hr2⟩ | ⟨cp, hcp, hr2⟩
      · rw [h]
        exact ih
      · rw [hr2]
        intro h
        simp [execute_mechanical_exit] at h
      · rcases monitor_llm_phase_spec b env cp (monitor_pnl b cp) (monitor_hours b env.now)
          (decide (b.state = CState.WATCH)) with ⟨hnone, heq⟩ |
          ⟨v, hv, hcall, hlen, hdec2, hlm, hmc, hcc, hcases⟩
      --
        · rw [hr2, heq]
          exact ih
        · rcases hcases with ⟨hact2, hw, hep, het, _⟩ | ⟨hk, hep, het⟩ | ⟨hs, hep, het⟩
          · rw [hr2]
            intro h
            rw [hact2] at h
            simp at h
          · rw [hr2]
            intro h
            rw [hk] at h
            simp at h
          · rw [hr2]
            intro h
            rw [hep, het]
            apply ih
            rw [hs] at h
            exact h
    | expire =>
      by_cases hc : b.state = CState.PENDING ∨ b.state = CState.WATCH
      · intro h
        simp [deactivate_expired_step, hc] at h
      · intro h
        simp only [deactivate_expired_step, if_neg hc] at h
        exact absurd h hc
    | llmKill now hne hact =>
      intro h
      simp [llm_kill_step] at h
    | track p =>
      unfold tracker_update_extrema
      split
      · intro h
        simp only at h
        exact ih h
      · exact ih

/-- The only step that first sets `entry_price` is the monitor promotion of a
WATCH row to ACTIVE. -/
theorem step_entry_price_origin (cfg : ExitConfig) (b c' : Candidate)
    (hstep : Step cfg b c') (hnone : b.entry_price = none) (hsome : c'.entry_price ≠ none) :
    b.state = .WATCH ∧ c'.state = .ACTIVE := by
  cases hstep with
  | dd decision cp rp now hstate hact =>
    cases decision <;> simp [run_due_diligence_apply, hnone] at hsome
  | recheck decision cp rp now hstate hact =>
    unfold recheck_watched_step at hsome
    split at hsome
    · simp [recheck_auto_kill, hnone] at hsome
    · cases decision <;> simp [run_due_diligence_apply, hnone] at hsome
  | monitor env r hok =>
    rcases monitor_position_shape cfg b env r hok with h | ⟨cp, et, hcp, hnw, hr2⟩ | ⟨cp, hcp, hr2⟩
    · rw [h] at hsome
      exact absurd hnone hsome
    · rw [hr2] at hsome
      simp [execute_mechanical_exit, hnone] at hsome
    · rcases monitor_llm_phase_spec b env cp (monitor_pnl b cp) (monitor_hours b env.now)
        (decide (b.state = CState.WATCH)) with ⟨hnone2, heq⟩ |
        ⟨v, hv, hcall, hlen, hdec2, hlm, hmc, hcc, hcases⟩
      · rw [hr2, heq] at hsome
        exact absurd hnone hsome
      · rcases hcases with ⟨hact2, hw, hep, het, _⟩ | ⟨hk, hep, het⟩ | ⟨hs, hep, het⟩
        · exact ⟨of_decide_eq_true hw, by rw [hr2]; exact hact2⟩
        · rw [hr2] at hsome
          rw [hep, hnone] at hsome
          exact absurd rfl hsome
        · rw [hr2] at hsome
          rw [hep, hnone] at hsome
          exact absurd rfl hsome
  | expire =>
    simp [deactivate_expired_step, hnone] at hsome
  | llmKill now hne hact =>
    simp [llm_kill_step, hnone] at hsome
  | track p =>
    unfold tracker_update_extrema at hsome
    split at hsome <;> simp [hnone] at hsome

/-- Evaluation of the hard-stop cycle: `cA` under `envA` exits mechanically. -/
theorem monitor_eval_cA : monitor_position cfgW cA envA = .ok rA := by
  have hfl : (⌊(-2000 : ℚ) + 2⁻¹⌋ : ℤ) = -2000 := by norm_num
  norm_num [monitor_position, monitor_pnl, monitor_hours, monitor_ref_time, calculate_pnl,
    truthy, round2, round1, round_eq, check_mechanical_exits, exit_peak_pnl, crash_signal,
    execute_mechanical_exit, cfgW, cA, envA, rA, baseCandidate, hfl]
  simp only [reduceCtorEq, if_false, reduceIte]
  norm_num [hfl]

/-- Evaluation of the stalking HOLD cycle: `cW2` under `envH` stays in WATCH
with updated metadata. -/
theorem monitor_eval_cW2 : monitor_position cfgW cW2 envH = .ok rH := by
  have hfa : (⌊(1000 : ℚ) + 2⁻¹⌋ : ℤ) = 1000 := by norm_num
  have hfb : (⌊(100 : ℚ) + 2⁻¹⌋ : ℤ) = 100 := by norm_num
  norm_num [monitor_position, monitor_pnl, monitor_hours, monitor_ref_time, calculate_pnl,
    truthy, round2, round1, round_eq, monitor_llm_phase, watch_decision_remap,
    cfgW, cW2, envH, rH, baseCandidate, hfa, hfb]
  simp only [reduceCtorEq, if_false, reduceIte]

/-- Evaluation of the pounce cycle: `cW2` under `envTP` is promoted to ACTIVE. -/
theorem monitor_eval_cW2_pounce : monitor_position cfgW cW2 envTP = .ok rP := by
  have hfa : (⌊(1000 : ℚ) + 2⁻¹⌋ : ℤ) = 1000 := by norm_num
  have hfb : (⌊(100 : ℚ) + 2⁻¹⌋ : ℤ) = 100 := by norm_num
  norm_num [monitor_position, monitor_pnl, monitor_hours, monitor_ref_time, calculate_pnl,
    truthy, round2, round1, round_eq, monitor_llm_phase, watch_decision_remap,
    cfgW, cW2, envTP, vTP, rP, baseCandidate, hfa, hfb]

/-- C2 counterexample: a WATCH candidate reviewed with a verdict whose
conviction is 9 (≥ 7) and whose signal velocity is mainstream is NOT promoted
to ACTIVE when the raw advisory decision is HOLD — it stays in WATCH, so the
claim's unconditional promotion rule fails on the code. -/
theorem watch_advisory_pounce_counterexample :
    cW2.state = .WATCH ∧
    envH.llm_result = some ⟨some .HOLD, some 9, some .intact⟩ ∧
    (7 : ℤ) ≤ 9 ∧ cW2.signal_velocity = some .mainstream ∧
    monitor_position cfgW cW2 envH = .ok rH ∧
    rH.candidate.state = .WATCH ∧ ¬ rH.candidate.state = .ACTIVE ∧
    rH.candidate.entry_price = none :=
  ⟨rfl, rfl, by norm_num, rfl, monitor_eval_cW2, rfl, by simp [rH, cW2, baseCandidate], rfl⟩

/-- C2 (amended): for a WATCH candidate reviewed with an advisory verdict
whose raw decision is TAKE_PROFIT or CUT_LOSS (the decisions the monitor
remaps, since they make no sense before entry): conviction ≥ 7 with
propagating/mainstream velocity promotes to ACTIVE setting entry price to the
current price and entry time to now; otherwise conviction ≤ 3 or an
invalidated thesis kills the candidate; otherwise it remains in WATCH.
Explicit ENTER and KILL verdicts are instead applied as given, and a HOLD
verdict always holds. -/
theorem watch_advisory_verdict_drives_transition
    (cfg : ExitConfig) (c : Candidate) (env : MonitorEnv) (v : Verdict)
    (cp : ℚ) (r : MonitorResult)
    (hw : c.state = .WATCH) (hact : c.is_active = true)
    (hprice : env.price_data = some cp) (hllm : env.llm_result = some v)
    (hdec : v.decision.getD .HOLD = .TAKE_PROFIT ∨ v.decision.getD .HOLD = .CUT_LOSS)
    (hmon : monitor_position cfg c env = .ok r) :
    (7 ≤ v.conviction_score.getD 5 ∧
        (c.signal_velocity.getD .quiet = .propagating ∨
         c.signal_velocity.getD .quiet = .mainstream) →
      r.decision = some .ENTER ∧ r.candidate.state = .ACTIVE ∧
      r.candidate.entry_price = some cp ∧ r.candidate.entry_time = some (some env.now)) ∧
    (¬(7 ≤ v.conviction_score.getD 5 ∧
        (c.signal_velocity.getD .quiet = .propagating ∨
         c.signal_velocity.getD .quiet = .mainstream)) ∧
        (v.conviction_score.getD 5 ≤ 3 ∨ v.thesis_status.getD .intact = .invalidated) →
      r.decision = some .KILL ∧ r.candidate.state = .KILLED ∧
      r.candidate.killed_by = some .monitor) ∧
    (¬(7 ≤ v.conviction_score.getD 5 ∧
        (c.signal_velocity.getD .quiet = .propagating ∨
         c.signal_velocity.getD .quiet = .mainstream)) ∧
        ¬(v.conviction_score.getD 5 ≤ 3 ∨ v.thesis_status.getD .intact = .invalidated) →
      r.decision = some .HOLD ∧ r.candidate.state = .WATCH ∧
      r.candidate.entry_price = c.entry_price) := by
  have hr : r = monitor_llm_phase c env cp (monitor_pnl c cp) (monitor_hours c env.now) true := by
    have hmw := monitor_position_watch cfg c env cp hw hact hprice
    rw [hmw] at hmon
    injection hmon with h
    exact h.symm
  subst hr
  refine ⟨fun hp => ?_, fun hk => ?_, fun hh => ?_⟩
  · have hd2 : watch_decision_remap (v.decision.getD .HOLD) (v.conviction_score.getD 5)
        (c.signal_velocity.getD .quiet) (v.thesis_status.getD .intact) = .ENTER := by
      rcases hdec with hd | hd <;> rw [hd] <;> simp [watch_decision_remap, if_pos hp]
    simp [monitor_llm_phase, hllm, hd2]
  · have hd2 : watch_decision_remap (v.decision.getD .HOLD) (v.conviction_score.getD 5)
        (c.signal_velocity.getD .quiet) (v.thesis_status.getD .intact) = .KILL := by
      rcases hdec with hd | hd <;> rw [hd] <;>
        simp [watch_decision_remap, if_neg hk.1, if_pos hk.2]
    simp [monitor_llm_phase, hllm, hd2]
  · have hd2 : watch_decision_remap (v.decision.getD .HOLD) (v.conviction_score.getD 5)
        (c.signal_velocity.getD .quiet) (v.thesis_status.getD .intact) = .HOLD := by
      rcases hdec with hd | hd <;> rw [hd] <;>
        simp [watch_decision_remap, if_neg hh.1, if_neg hh.2]
    simp [monitor_llm_phase, hllm, hd2, hw]

/-- Witness for C2 (amended): a TAKE_PROFIT verdict with conviction 9 on the
mainstream-velocity WATCH row `cW2` triggers the pounce to ACTIVE. -/
theorem watch_advisory_verdict_drives_transition_witness :
    rP.decision = some .ENTER ∧ rP.candidate.state = .ACTIVE ∧
    rP.candidate.entry_price = some 110 ∧ rP.candidate.entry_time = some (some 36000) :=
  (watch_advisory_verdict_drives_transition cfgW cW2 envTP vTP 110 rP
    rfl rfl rfl rfl (Or.inl rfl) monitor_eval_cW2_pounce).1
    ⟨by norm_num [vTP], Or.inr rfl⟩

/-- C7 counterexample: the mechanical hard-stop cycle on `cA` completes (it
returns a decision and appends exactly one journal entry) yet leaves
`last_monitor_at`, `monitor_count` and `current_conviction` untouched, so the
claim that every completed cycle persists `monitor_count + 1` fails. -/
theorem monitor_mechanical_metadata_counterexample :
    monitor_position cfgW cA envA = .ok rA ∧
    rA.decision ≠ none ∧ rA.journal.length = 1 ∧
    rA.candidate.monitor_count = cA.monitor_count ∧ cA.monitor_count = none ∧
    rA.candidate.last_monitor_at = none ∧ rA.candidate.current_conviction = none :=
  ⟨monitor_eval_cA, by simp [rA, execute_mechanical_exit], rfl, rfl, rfl, rfl, rfl⟩

/-- C7 (amended): every completed monitoring cycle (one that returns a
decision) appends exactly one JournalEntry; a cycle that reaches the advisory
step additionally persists `last_monitor_at = now`, `monitor_count + 1` and
the verdict's conviction, while a mechanical-exit cycle skips the advisory
step and leaves the monitoring metadata unchanged (the row is killed by the
mechanical system instead). -/
theorem monitor_cycle_journal_and_metadata (cfg : ExitConfig) (c : Candidate)
    (env : MonitorEnv) (r : MonitorResult)
    (hok : monitor_position cfg c env = .ok r) (hdone : r.decision ≠ none) :
    r.journal.length = 1 ∧
    (r.llm_called = true →
      r.candidate.last_monitor_at = some (some env.now) ∧
      r.candidate.monitor_count = some (c.monitor_count.getD 0 + 1) ∧
      ∃ conviction, r.candidate.current_conviction = some conviction) ∧
    (r.llm_called = false →
      r.candidate.last_monitor_at = c.last_monitor_at ∧
      r.candidate.monitor_count = c.monitor_count ∧
      r.candidate.current_conviction = c.current_conviction ∧
      r.candidate.state = .KILLED ∧ r.candidate.killed_by = some .mechanical) := by
  rcases monitor_position_shape cfg c env r hok with h | ⟨cp, et, hcp, hnw, hr2⟩ | ⟨cp, hcp, hr2⟩
  · rw [h] at hdone
    exact absurd rfl hdone
  · subst hr2
    refine ⟨rfl, fun hcall => ?_, fun _ => ⟨rfl, rfl, rfl, rfl, rfl⟩⟩
    exact absurd hcall (by simp [execute_mechanical_exit])
  · rcases monitor_llm_phase_spec c env cp (monitor_pnl c cp) (monitor_hours c env.now)
      (decide (c.state = CState.WATCH)) with ⟨hnone, heq⟩ |
      ⟨v, hv, hcall, hlen, hdec2, hlm, hmc, hcc, hcases⟩
    · rw [hr2, heq] at hdone
      exact absurd rfl hdone
    · subst hr2
      refine ⟨hlen, fun _ => ⟨hlm, hmc, _, hcc⟩, fun hfalse => ?_⟩
      rw [hcall] at hfalse
      exact absurd hfalse (by simp)

/-- Witness for C7 (amended): the advisory HOLD cycle on `cW2` appends one
journal entry and persists the metadata. -/
theorem monitor_cycle_journal_and_metadata_witness :
    rH.journal.length = 1 ∧ rH.candidate.last_monitor_at = some (some 36000) ∧
    rH.candidate.monitor_count = some 1 := by
  have h := monitor_cycle_journal_and_metadata cfgW cW2 envH rH monitor_eval_cW2
    (by simp [rH])
  exact ⟨h.1, (h.2.1 rfl).1, (h.2.1 rfl).2.1⟩

/-- C9: `calculate_pnl` is null for any direction that is neither LONG nor
SHORT (MIXED); the monitor coalesces that null P&L to 0; and with spec-signed
thresholds (negative stops, positive profit targets) a MIXED position at the
coalesced P&L of 0 can only ever be forced out by checkpoint 5, the time
limit — the P&L-comparing checkpoints (hard stop, profit protection, strong
profit, soft stop) and the LONG-only market-crash checkpoint can never fire. -/
theorem mixed_direction_only_time_limit_exit :
    (∀ entry_price current_price, calculate_pnl entry_price current_price .MIXED = none) ∧
    (∀ c cp, c.direction = .MIXED → monitor_pnl c cp = 0) ∧
    (∀ cfg c current_price hours spy d,
      c.direction = .MIXED →
      cfg.EXIT_HARD_STOP_PCT < 0 → cfg.EXIT_SOFT_STOP_PCT < 0 →
      0 < cfg.EXIT_PROFIT_TAKE_PCT → 0 < cfg.EXIT_PROFIT_STRONG_PCT →
      check_mechanical_exits cfg c current_price 0 hours spy = .ok d →
      (∀ k, d.checkpoint = some k → k = 5) ∧
      (d.should_exit = true → d.checkpoint = some 5)) := by
  have h1 : ∀ (e cp : Option ℚ), calculate_pnl e cp .MIXED = none := by
    intro e cp
    cases e <;> cases cp <;> simp [calculate_pnl]
  refine ⟨h1, ?_, ?_⟩
  · intro c cp hdir
    unfold monitor_pnl
    rw [hdir]
    split <;> simp [h1]
  · intro cfg c current_price hours spy d hdir hhs hss hpt hps hok
    unfold check_mechanical_exits at hok
    split at hok
    case isTrue hg =>
      injection hok with hok; subst hok
      exact ⟨by simp, by simp⟩
    case isFalse hg =>
      split at hok
      case isTrue hc1 => exact absurd hc1 (by linarith)
      case isFalse hc1 =>
        split at hok
        case h_1 heq => exact absurd hok (by simp)
        case h_2 pk heq =>
          have hpk : pk = 0 := by
            unfold exit_peak_pnl at heq
            split at heq
            · rw [hdir, h1] at heq
              exact absurd heq (by simp)
            · injection heq with heq
              exact heq.symm
          subst hpk
          split at hok
          case isTrue hc2 => exact absurd hc2.1 (by linarith)
          case isFalse hc2 =>
            split at hok
            case isTrue hc3 => exact absurd hc3 (by linarith)
            case isFalse hc3 =>
              split at hok
              case isTrue hc4 =>
                rw [hdir] at hc4
                exact absurd hc4.1 (by simp)
              case isFalse hc4 =>
                split at hok
                case isTrue hc5 =>
                  injection hok with hok; subst hok
                  exact ⟨by simp, by simp⟩
                case isFalse hc5 =>
                  split at hok
                  case isTrue hc6 => exact absurd hc6 (by linarith)
                  case isFalse hc6 =>
                    injection hok with hok; subst hok
                    exact ⟨by simp, by simp⟩

/-- Witness for C9: the MIXED position `cM`, 100 hours in with the
spec-example thresholds, exits only through the time-limit checkpoint. -/
theorem mixed_direction_only_time_limit_exit_witness :
    calculate_pnl (some 100) (some 50) .MIXED = none ∧
    monitor_pnl cM 50 = 0 ∧
    check_mechanical_exits cfgW cM (some 50) 0 100 none = .ok d5 ∧
    d5.should_exit = true ∧ d5.checkpoint = some 5 := by
  have hchk : check_mechanical_exits cfgW cM (some 50) 0 100 none = .ok d5 := by
    norm_num [check_mechanical_exits, exit_peak_pnl, cfgW, cM, d5, baseCandidate, truthy,
      calculate_pnl, crash_signal]
  refine ⟨mixed_direction_only_time_limit_exit.1 (some 100) (some 50),
    mixed_direction_only_time_limit_exit.2.1 cM 50 rfl, hchk, rfl,
    (mixed_direction_only_time_limit_exit.2.2 cfgW cM (some 50) 100 none d5 rfl
      (by norm_num [cfgW]) (by norm_num [cfgW]) (by norm_num [cfgW]) (by norm_num [cfgW])
      hchk).2 rfl⟩

/-- C4 counterexample: a candidate put into WATCH by a WATCH due-diligence
decision is reachable and has no `dd_approved_price`, so the claim that every
reachable WATCH candidate has `dd_approved_price` set fails on the code. -/
theorem watch_dd_price_counterexample :
    Reachable cfgW cWnoDD ∧ cWnoDD.state = .WATCH ∧ cWnoDD.dd_approved_price = none :=
  ⟨⟨baseCandidate, ⟨Or.inl rfl, rfl, rfl, rfl, rfl, rfl, rfl, rfl, rfl, rfl, rfl, rfl⟩,
    Relation.ReflTransGen.single
      (Step.dd baseCandidate .WATCH (some 10) (some 10) 0 (Or.inl rfl) rfl)⟩,
   rfl, rfl⟩

/-- C4 (amended): every reachable WATCH candidate has `entry_price` and
`entry_time` unset; a due-diligence decision of TRADE or PUBLISH always
transitions the candidate to WATCH — never directly to ACTIVE — recording
`dd_approved_price` (the current price, or the report price when the fetch
failed) and leaving `entry_price` untouched; and the only step that first
sets `entry_price` is the monitor's WATCH-to-ACTIVE promotion.  (A WATCH
due-diligence decision, however, parks the candidate in WATCH without
recording `dd_approved_price`.) -/
theorem watch_entry_invariants :
    (∀ cfg c, Reachable cfg c → c.state = .WATCH →
      c.entry_price = none ∧ c.entry_time = none) ∧
    (∀ c decision current_price report_price now,
      decision = .TRADE ∨ decision = .PUBLISH →
      (run_due_diligence_apply c decision current_price report_price now).state = .WATCH ∧
      (run_due_diligence_apply c decision current_price report_price now).state ≠ .ACTIVE ∧
      (run_due_diligence_apply c decision current_price report_price now).dd_approved_price =
        (if truthy current_price = true then current_price else report_price) ∧
      (run_due_diligence_apply c decision current_price report_price now).entry_price =
        c.entry_price) ∧
    (∀ cfg c c', Step cfg c c' → c.entry_price = none → c'.entry_price ≠ none →
      c.state = .WATCH ∧ c'.state = .ACTIVE) := by
  refine ⟨?_, ?_, step_entry_price_origin⟩
  · intro cfg c hr hw
    exact reachable_no_entry_before_active cfg c hr (Or.inr hw)
  · intro c decision current_price report_price now hd
    rcases hd with hd | hd <;> subst hd <;>
      exact ⟨rfl, by simp [run_due_diligence_apply], rfl, rfl⟩

/-- Witness for C4 (amended): the reachable WATCH row `cWnoDD` has no entry
price; a TRADE decision parks `baseCandidate` in WATCH recording price 10. -/
theorem watch_entry_invariants_witness :
    cWnoDD.entry_price = none ∧ cWnoDD.entry_time = none ∧
    (run_due_diligence_apply baseCandidate .TRADE (some 10) none 0).state = .WATCH ∧
    (run_due_diligence_apply baseCandidate .TRADE (some 10) none 0).dd_approved_price =
      some 10 := by
  have hreach : Reachable cfgW cWnoDD :=
    ⟨baseCandidate, ⟨Or.inl rfl, rfl, rfl, rfl, rfl, rfl, rfl, rfl, rfl, rfl, rfl, rfl⟩,
      Relation.ReflTransGen.single
        (Step.dd baseCandidate .WATCH (some 10) (some 10) 0 (Or.inl rfl) rfl)⟩
  have h1 := watch_entry_invariants.1 cfgW cWnoDD hreach rfl
  have h2 := watch_entry_invariants.2.1 baseCandidate .TRADE (some 10) none 0 (Or.inl rfl)
  refine ⟨h1.1, h1.2, h2.1, ?_⟩
  rw [h2.2.2.1]
  norm_num [truthy]

/-- C10: `should_monitor` returns true whenever `entry_time` is missing or
unparseable, regardless of `last_monitor_at`; since reachable WATCH
candidates never carry an `entry_time`, every WATCH candidate is due on every
pass; and a candidate can only be throttled (returning false) when it has
both a parsed `entry_time` and a parsed `last_monitor_at`, i.e. the 2h/4h
interval throttle applies only to entered positions. -/
theorem should_monitor_missing_entry_time :
    (∀ c now, (c.entry_time = none ∨ c.entry_time = some none) →
      should_monitor c now = true) ∧
    (∀ cfg c now, Reachable cfg c → c.state = .WATCH → should_monitor c now = true) ∧
    (∀ c now, should_monitor c now = false →
      ∃ t l, c.entry_time = some (some t) ∧ c.last_monitor_at = some (some l)) := by
  have h1 : ∀ (c : Candidate) (now : ℚ),
      (c.entry_time = none ∨ c.entry_time = some none) → should_monitor c now = true := by
    intro c now h
    rcases h with h | h <;> simp [should_monitor, h]
  refine ⟨h1, ?_, ?_⟩
  · intro cfg c now hr hw
    exact h1 c now (Or.inl (reachable_no_entry_before_active cfg c hr (Or.inr hw)).2)
  · intro c now hfalse
    unfold should_monitor at hfalse
    rcases het : c.entry_time with _ | ot
    · rw [het] at hfalse
      exact absurd hfalse (by simp)
    · rcases ot with _ | t
      · rw [het] at hfalse
        exact absurd hfalse (by simp)
      · rw [het] at hfalse
        rcases hlm : c.last_monitor_at with _ | ol
        · rw [hlm] at hfalse
          exact absurd hfalse (by simp)
        · rcases ol with _ | l
          · rw [hlm] at hfalse
            exact absurd hfalse (by simp)
          · exact ⟨t, l, rfl, rfl⟩

/-- Witness for C10: the never-entered `baseCandidate` and the reachable
WATCH row `cWnoDD` are both always due for review. -/
theorem should_monitor_missing_entry_time_witness :
    should_monitor baseCandidate 0 = true ∧ should_monitor cWnoDD 12345 = true := by
  have hreach : Reachable cfgW cWnoDD :=
    ⟨baseCandidate, ⟨Or.inl rfl, rfl, rfl, rfl, rfl, rfl, rfl, rfl, rfl, rfl, rfl, rfl⟩,
      Relation.ReflTransGen.single
        (Step.dd baseCandidate .WATCH (some 10) (some 10) 0 (Or.inl rfl) rfl)⟩
  exact ⟨should_monitor_missing_entry_time.1 baseCandidate 0 (Or.inl rfl),
    should_monitor_missing_entry_time.2.1 cfgW cWnoDD 12345 hreach rfl⟩

end HedgeFund
